import Mathlib

/-!
Verification of the FinTrack expense dashboard (`src/public/service-worker.js`,
which bundles the service worker together with `src/App.jsx`).

The embedding models amounts and budgets as exact rationals (`Rat`), record
ids as JavaScript numbers-or-strings, and dates as raw strings parsed on
demand, mirroring how the source keeps dates as strings and calls
`new Date(...)` at each use site.
-/

set_option autoImplicit false

namespace FinTrack

/-- A JavaScript id value as the app produces it: `Date.now()`-style numbers,
or raw strings coming from CSV cells.  Truthy values of other JavaScript
types are outside the model (no app operation generates them). -/
inductive IdVal where
  | num (q : Rat)
  | str (s : String)
  deriving DecidableEq, Repr

/-- JavaScript truthiness for an id value (`0` and `""` are falsy). -/
def IdVal.truthy : IdVal → Bool
  | .num q => q != 0
  | .str s => s != ""

/-- An expense record as stored in `expenses` (localStorage key
`ft_expenses_v2`): `{id, reason, amount, date, category}`. -/
structure Record where
  id : IdVal
  reason : String
  amount : Rat
  date : String
  category : String
  deriving DecidableEq, Repr

/-- Splits a character list at every occurrence of `c`, keeping empty
pieces (the semantics of `String.prototype.split`). -/
def splitCharList (c : Char) : List Char → List Char → List (List Char)
  | acc, [] => [acc.reverse]
  | acc, x :: rest =>
      if x = c then acc.reverse :: splitCharList c [] rest
      else splitCharList c (x :: acc) rest

/-- `s.split(c)` for a one-character separator. -/
def splitChar (c : Char) (s : String) : List String :=
  (splitCharList c [] s.toList).map String.mk

/-- Whitespace trimming on both ends (`String.prototype.trim`). -/
def trimChars (l : List Char) : List Char :=
  ((l.dropWhile Char.isWhitespace).reverse.dropWhile Char.isWhitespace).reverse

/-- `s.trim()`. -/
def jsTrim (s : String) : String :=
  String.mk (trimChars s.toList)

/-- Digit-string accumulator: `none` when a non-digit appears. -/
def digitsToNatAux : Nat → List Char → Option Nat
  | acc, [] => some acc
  | acc, c :: cs =>
      if c.isDigit then digitsToNatAux (acc * 10 + (c.toNat - 48)) cs else none

/-- An unsigned decimal literal `digits`, `digits.digits`, `digits.` or
`.digits` (the grammar `Number(...)` accepts for plain decimals). -/
def parseUnsigned (l : List Char) : Option Rat :=
  match splitCharList '.' [] l with
  | [intPart] =>
      if intPart.isEmpty then none
      else (digitsToNatAux 0 intPart).map (fun n => (n : Rat))
  | [intPart, fracPart] =>
      if intPart.isEmpty && fracPart.isEmpty then none
      else
        match digitsToNatAux 0 intPart, digitsToNatAux 0 fracPart with
        | some i, some f => some ((i : Rat) + (f : Rat) / (10 : Rat) ^ fracPart.length)
        | _, _ => none
  | _ => none

/-- JavaScript `Number(string)` restricted to plain decimal literals:
`none` models `NaN`; the empty (or all-whitespace) string converts to `0`. -/
def jsStringToNumber (s : String) : Option Rat :=
  match trimChars s.toList with
  | [] => some 0
  | '-' :: rest => (parseUnsigned rest).map (fun q => -q)
  | '+' :: rest => parseUnsigned rest
  | l => parseUnsigned l

/-- Left-pads a month number to two digits (`String.padStart(2, "0")`). -/
def pad2 (n : Nat) : String :=
  if n < 10 then "0" ++ toString n else toString n

def isLeap (y : Nat) : Bool :=
  y % 4 == 0 && (y % 100 != 0 || y % 400 == 0)

def daysInMonth (y : Nat) (m : Nat) : Nat :=
  if m == 2 then (if isLeap y then 29 else 28)
  else if m == 4 || m == 6 || m == 9 || m == 11 then 30
  else 31

def digitVal (c : Char) : Nat := c.toNat - 48

/-- `new Date(string)` on the ISO `YYYY-MM-DD` date-only format: yields the
calendar triple on a valid date, `none` (an Invalid Date) otherwise.
Other input shapes JavaScript may accept are outside the model; the app
itself only produces `YYYY-MM-DD` strings. -/
def parseDate (s : String) : Option (Nat × Nat × Nat) :=
  match s.toList with
  | [y1, y2, y3, y4, '-', m1, m2, '-', d1, d2] =>
      if y1.isDigit && y2.isDigit && y3.isDigit && y4.isDigit &&
         m1.isDigit && m2.isDigit && d1.isDigit && d2.isDigit then
        let y := ((digitVal y1 * 10 + digitVal y2) * 10 + digitVal y3) * 10 + digitVal y4
        let m := digitVal m1 * 10 + digitVal m2
        let d := digitVal d1 * 10 + digitVal d2
        if 1 ≤ m && m ≤ 12 && 1 ≤ d && d ≤ daysInMonth y m then some (y, m, d)
        else none
      else none
  | _ => none

/-- A date's time value collapsed to a totally ordered integer key
(`y * 10000 + m * 100 + d` is order-isomorphic to the epoch time for
date-only ISO strings); `none` is `NaN`, the value of an Invalid Date. -/
def dateVal (s : String) : Option Int :=
  (parseDate s).map (fun p => (p.1 : Int) * 10000 + (p.2.1 : Int) * 100 + (p.2.2 : Int))

/-- `new Date(a) >= new Date(b)`: any comparison against `NaN` is false. -/
def jsDateGe (a b : String) : Bool :=
  match dateVal a, dateVal b with
  | some x, some y => y ≤ x
  | _, _ => false

/-- `new Date(a) <= new Date(b)`: any comparison against `NaN` is false. -/
def jsDateLe (a b : String) : Bool :=
  match dateVal a, dateVal b with
  | some x, some y => x ≤ y
  | _, _ => false

/-- `new Date(a) < new Date(b)`, used by the cumulative-series sort
comparator `new Date(a.date) - new Date(b.date)`. -/
def jsDateLt (a b : String) : Bool :=
  match dateVal a, dateVal b with
  | some x, some y => x < y
  | _, _ => false

/-- `"${y}-${pad2 (mIdx+1)}"` where `mIdx` is a zero-based month index,
as built from `getFullYear()` / `getMonth()`. -/
def ymKey (y : Nat) (mIdx : Nat) : String :=
  toString y ++ "-" ++ pad2 (mIdx + 1)

/-- `monthKey(dateStr)` from App.jsx: `"Unknown"` for an unparsable date,
otherwise `"YYYY-MM"`. -/
def monthKey (s : String) : String :=
  match parseDate s with
  | none => "Unknown"
  | some (y, m, _) => ymKey y (m - 1)

/-! ### Sorting (`Array.prototype.sort` with a boolean "comes strictly first" test) -/

/-- Inserts `x` into `l`, placing it before the first element `y` with
`lt x y`; with a comparator-derived `lt` this realizes a stable sort. -/
def insertSorted {α : Type} (lt : α → α → Bool) (x : α) : List α → List α
  | [] => [x]
  | y :: ys => if lt x y then x :: y :: ys else y :: insertSorted lt x ys

/-- `list.sort(cmp)` modelled as insertion sort with `lt a b` meaning
`cmp(a, b) < 0`. -/
def sortJS {α : Type} (lt : α → α → Bool) : List α → List α
  | [] => []
  | x :: xs => insertSorted lt x (sortJS lt xs)

/-! ### Grouped sums (plain-object accumulators `acc[k] = (acc[k] || 0) + v`) -/

/-- `acc[k] = (acc[k] || 0) + v` on an insertion-ordered object viewed as an
association list: an existing key is updated in place, a new key appended. -/
def upsert (k : String) (v : Rat) : List (String × Rat) → List (String × Rat)
  | [] => [(k, v)]
  | (k2, v2) :: rest =>
      if k2 = k then (k2, v2 + v) :: rest else (k2, v2) :: upsert k v rest

/-- `obj[k] || 0`. -/
def lookup0 (m : List (String × Rat)) (k : String) : Rat :=
  match m.find? (fun p => p.1 == k) with
  | some p => p.2
  | none => 0

/-- Sum of the values of a key-value list. -/
def sumVals (m : List (String × Rat)) : Rat := (m.map Prod.snd).sum

/-! ### The record store and the derived-view engine -/

/-- `total`: `expenses.reduce((acc, e) => acc + e.amount, 0)`. -/
def totalAmount (expenses : List Record) : Rat :=
  expenses.foldl (fun acc e => acc + e.amount) 0

/-- `categoryTotals`: `expenses.reduce((acc, e) => {acc[e.category] =
(acc[e.category] || 0) + e.amount; return acc}, {})`, as an
insertion-ordered association list. -/
def categoryTotals (expenses : List Record) : List (String × Rat) :=
  expenses.foldl (fun acc e => upsert e.category e.amount acc) []

/-- The accumulation loop of `monthlyTotals`:
`for (e of expenses) map[monthKey(e.date)] = (map[...] || 0) + e.amount`. -/
def monthlyMap (expenses : List Record) : List (String × Rat) :=
  expenses.foldl (fun acc e => upsert (monthKey e.date) e.amount acc) []

/-- `monthlyTotals`: the month map as `{month, value}` pairs sorted by
`a.month.localeCompare(b.month)`. -/
def monthlyTotals (expenses : List Record) : List (String × Rat) :=
  sortJS (fun a b => a.1 < b.1) (monthlyMap expenses)

/-- `[...expenses].sort((a, b) => new Date(a.date) - new Date(b.date))`;
a comparator that evaluates to `NaN` (an unparsable date on either side)
leaves the relative order unchanged. -/
def sortByDateAsc (expenses : List Record) : List Record :=
  sortJS (fun a b => jsDateLt a.date b.date) expenses

/-- The running-sum loop of `cumulativeData`: starting from accumulator
`acc`, emits `{date: e.date, total: acc + ...}` per record. -/
def runTotals (acc : Rat) : List Record → List (String × Rat)
  | [] => []
  | e :: rest => (e.date, acc + e.amount) :: runTotals (acc + e.amount) rest

/-- `cumulativeData`: records sorted ascending by date, then a running sum,
one `{date, total}` point per record. -/
def cumulativeData (expenses : List Record) : List (String × Rat) :=
  runTotals 0 (sortByDateAsc expenses)

/-- `percentOfBudget = budget > 0 ? Math.min(1, Math.abs(total) / budget) : 0`. -/
def percentOfBudget (budget : Rat) (expenses : List Record) : Rat :=
  if 0 < budget then min 1 (|totalAmount expenses| / budget) else 0

/-- `deleteExpense(id)` (after the user confirms):
`setExpenses(s => s.filter(e => e.id !== id))`. -/
def deleteExpense (id : IdVal) (s : List Record) : List Record :=
  s.filter (fun e => !(e.id == id))

/-! ### JSON values and the JSON importer -/

/-- A parsed JSON value (the result of a successful `JSON.parse`). -/
inductive Json where
  | null
  | bool (b : Bool)
  | num (q : Rat)
  | str (s : String)
  | arr (l : List Json)
  | obj (fields : List (String × Json))
  deriving Repr

/-- Property access `j[k]` on a parsed JSON value: on an object the last
binding for a duplicated key wins (as in `JSON.parse`); on other non-null
values every property is `undefined`. -/
def jGet (j : Json) (k : String) : Option Json :=
  match j with
  | .obj fields => (fields.reverse.find? (fun p => p.1 == k)).map (fun p => p.2)
  | _ => none

/-- `Json.arr _` test, for stating the "top-level value is not an array"
error condition. -/
def Json.isArr : Json → Bool
  | .arr _ => true
  | _ => false

/-- `Number(v)` on a parsed JSON value; `none` is `NaN`.  `Number` of an
array or object (`[]`, `[x]`, `{}` …) is outside the model — the importer
only feeds it field values, which the app writes as numbers or strings. -/
def jsNumberOfJson : Json → Option Rat
  | .num q => some q
  | .str s => jsStringToNumber s
  | .bool b => some (if b then 1 else 0)
  | .null => some 0
  | .arr _ => none
  | .obj _ => none

/-- `id: r.id || Date.now() + Math.floor(Math.random() * 1000)`:
a falsy id (absent, `null`, `0`, `""`) is replaced by the generated number
`fresh`.  Truthy values that are neither numbers nor strings are outside
the model and also mapped to `fresh`. -/
def cleanId (fresh : Rat) : Option Json → IdVal
  | some (.num q) => if q = 0 then .num fresh else .num q
  | some (.str s) => if s = "" then .num fresh else .str s
  | _ => .num fresh

/-- `r.f || dflt` for the string fields `reason`/`date`/`category`:
a falsy or absent value gives the default.  Truthy non-string values are
outside the model and also give the default. -/
def cleanStrField (dflt : String) : Option Json → String
  | some (.str s) => if s = "" then dflt else s
  | _ => dflt

/-- `amount: Number(r.amount) || 0` (`Number(undefined)` is `NaN`, and
`NaN || 0` is `0`). -/
def cleanAmount : Option Json → Rat
  | none => 0
  | some v => (jsNumberOfJson v).getD 0

/-- Normalization of one imported JSON array element, `handleImportJSON`'s
`data.map` body.  A `null` element throws a `TypeError` on the first
property access, aborting the whole import: that is the `none` case. -/
def cleanElem (fresh : Rat) (today : String) : Json → Option Record
  | .null => none
  | j =>
      some { id := cleanId fresh (jGet j "id"),
             reason := cleanStrField "Imported" (jGet j "reason"),
             amount := cleanAmount (jGet j "amount"),
             date := cleanStrField today (jGet j "date"),
             category := cleanStrField "Other" (jGet j "category") }

/-- `data.map(r => ({...}))` over the parsed array, element `i` drawing the
generated id `fresh i`; the first throwing element aborts the whole map. -/
def cleanList (fresh : Nat → Rat) (today : String) : Nat → List Json → Option (List Record)
  | _, [] => some []
  | i, j :: rest =>
      match cleanElem (fresh i) today j, cleanList fresh today (i + 1) rest with
      | some r, some rs => some (r :: rs)
      | _, _ => none

/-- `handleImportJSON`: `parsed = none` models `JSON.parse` throwing on
malformed text.  The returned flag is `true` on the success alert, `false`
on the "Invalid JSON file." alert; the first component is the store after
the call (`setExpenses(s => [...s, ...cleaned])` on success). -/
def handleImportJSON (fresh : Nat → Rat) (today : String)
    (parsed : Option Json) (s : List Record) : List Record × Bool :=
  match parsed with
  | none => (s, false)
  | some j =>
      match j with
      | .arr l =>
          match cleanList fresh today 0 l with
          | some cleaned => (s ++ cleaned, true)
          | none => (s, false)
      | _ => (s, false)

/-! ### The JSON exporter -/

def idToJson : IdVal → Json
  | .num q => .num q
  | .str s => .str s

/-- One record as `JSON.stringify` serializes it (fields in insertion
order). -/
def recordToJson (r : Record) : Json :=
  .obj [("id", idToJson r.id), ("reason", .str r.reason),
        ("amount", .num r.amount), ("date", .str r.date),
        ("category", .str r.category)]

/-- `downloadJSON`: the value serialized into the exported file,
`JSON.stringify(records, null, 2)`. -/
def exportJSON (recs : List Record) : Json :=
  .arr (recs.map recordToJson)

/-! ### The CSV importer (`handleFileImport`, non-JSON branch) -/

/-- `txt.split(/\r?\n/)`: split at every newline, dropping a carriage
return immediately before it. -/
def splitLinesAux : List Char → List Char → List String
  | acc, [] => [String.mk acc.reverse]
  | acc, '\n' :: rest =>
      (match acc with
       | '\r' :: acc2 => String.mk acc2.reverse
       | _ => String.mk acc.reverse) :: splitLinesAux [] rest
  | acc, c :: rest => splitLinesAux (c :: acc) rest

def splitLines (s : String) : List String :=
  splitLinesAux [] s.toList

/-- `p.replace(/(^"|"$)/g, "")`: drop one leading and one trailing
double quote. -/
def stripQuotes (s : String) : String :=
  let l := match s.toList with
           | '"' :: rest => rest
           | l => l
  match l.getLast? with
  | some '"' => String.mk l.dropLast
  | _ => String.mk l

/-- JavaScript `parseFloat`: the longest decimal prefix of the trimmed
string; `none` is `NaN`. -/
def jsParseFloat (s : String) : Option Rat :=
  let l := trimChars s.toList
  let signAndRest : Bool × List Char :=
    match l with
    | '-' :: r => (true, r)
    | '+' :: r => (false, r)
    | _ => (false, l)
  let ip := signAndRest.2.takeWhile Char.isDigit
  let rest := signAndRest.2.dropWhile Char.isDigit
  let fp := match rest with
            | '.' :: r2 => r2.takeWhile Char.isDigit
            | _ => []
  if ip.isEmpty && fp.isEmpty then none
  else
    let v : Rat := ((ip.foldl (fun a c => a * 10 + digitVal c) 0 : Nat) : Rat) +
      ((fp.foldl (fun a c => a * 10 + digitVal c) 0 : Nat) : Rat) / (10 : Rat) ^ fp.length
    some (if signAndRest.1 then -v else v)

/-- `obj[name]` for a CSV row object built by
`headers.forEach((h, i) => obj[h] = parts[i])`: the last occurrence of
`name` among the headers wins; a missing cell is `undefined`. -/
def lookupField (headers parts : List String) (name : String) : Option String :=
  match (headers.enum.filter (fun p => p.2 == name)).getLast? with
  | some p => parts.get? p.1
  | none => none

/-- Normalization of one CSV row (the same `id/reason/amount/date/category`
defaulting as the JSON path, but on string cells). -/
def cleanCSVRow (fresh : Rat) (today : String) (headers parts : List String) : Record :=
  { id := match lookupField headers parts "id" with
          | some s => if s = "" then .num fresh else .str s
          | none => .num fresh,
    reason := match lookupField headers parts "reason" with
              | some s => if s = "" then "Imported" else s
              | none => "Imported",
    amount := match lookupField headers parts "amount" with
              | some s => (jsStringToNumber s).getD 0
              | none => 0,
    date := match lookupField headers parts "date" with
            | some s => if s = "" then today else s
            | none => today,
    category := match lookupField headers parts "category" with
                | some s => if s = "" then "Other" else s
                | none => "Other" }

/-- The CSV branch of `handleFileImport`: returns the store after the call
and `true` on the "CSV imported" alert, `false` on the "CSV appears empty"
alert. -/
def handleFileImportCSV (fresh : Nat → Rat) (today : String)
    (txt : String) (s : List Record) : List Record × Bool :=
  let lines := (splitLines txt).filter (fun l => l != "")
  if lines.length < 2 then (s, false)
  else
    let headers := (splitChar ',' (lines.headD "")).map (fun h => stripQuotes (jsTrim h))
    let rows := lines.tail.map (fun l => (splitChar ',' l).map stripQuotes)
    let cleaned := rows.enum.map (fun p => cleanCSVRow (fresh p.1) today headers p.2)
    (s ++ cleaned, true)

/-! ### Adding an expense through the form -/

/-- `addExpense`: guarded on truthy reason/amount/date, then appends
`{id: Date.now(), reason, amount: parseFloat(amount), date, category}`.
A `NaN` amount (unparsable form text) is outside the model and stored
as `0`. -/
def addExpense (nowId : Rat) (reason amountStr date category : String)
    (s : List Record) : List Record :=
  if reason = "" || amountStr = "" || date = "" then s
  else s ++ [{ id := .num nowId, reason := reason,
               amount := (jsParseFloat amountStr).getD 0,
               date := date, category := category }]

/-! ### The filtered + sorted view -/

/-- `if (filterCategory !== "All") list = list.filter(x => x.category === filterCategory)`. -/
def catStep (fc : String) (l : List Record) : List Record :=
  if fc ≠ "All" then l.filter (fun x => x.category == fc) else l

/-- `if (filterFrom) list = list.filter(x => new Date(x.date) >= new Date(filterFrom))`. -/
def fromStep (f : String) (l : List Record) : List Record :=
  if f ≠ "" then l.filter (fun x => jsDateGe x.date f) else l

/-- `if (filterTo) list = list.filter(x => new Date(x.date) <= new Date(filterTo))`. -/
def toStep (t : String) (l : List Record) : List Record :=
  if t ≠ "" then l.filter (fun x => jsDateLe x.date t) else l

/-- The numeric value the sort comparators `b.id - a.id` coerce an id to;
a string id goes through `Number`.  A comparator evaluating to `NaN`
(non-numeric string id) is outside the model. -/
def idNum : IdVal → Rat
  | .num q => q
  | .str s => (jsStringToNumber s).getD 0

/-- The four `sortBy` branches of `filtered`. -/
def sortStep (sb : String) (l : List Record) : List Record :=
  let l := if sb = "newest" then sortJS (fun a b => idNum b.id < idNum a.id) l else l
  let l := if sb = "oldest" then sortJS (fun a b => idNum a.id < idNum b.id) l else l
  let l := if sb = "high" then sortJS (fun a b => b.amount < a.amount) l else l
  if sb = "low" then sortJS (fun a b => a.amount < b.amount) l else l

/-- `filtered`: the category, from-date and to-date filters followed by the
selected sort. -/
def filtered (expenses : List Record) (fc f t sb : String) : List Record :=
  sortStep sb (toStep t (fromStep f (catStep fc expenses)))

/-! ### Insight heuristics -/

/-- One generated insight, abstracting over the formatted message text. -/
inductive Tip where
  | budgetAlert (budget : Rat)
  | started (cat : String) (amt : Rat)
  | more (cat : String) (pct : Int)
  | less (cat : String) (pct : Int)
  deriving DecidableEq, Repr

/-- `Math.round`: round half toward positive infinity. -/
def jsRound (q : Rat) : Int := ⌊q + 1 / 2⌋

/-- `new Date(y, m - 1, 1)` month arithmetic: the previous calendar month,
wrapping January back to December of the previous year. -/
def prevYM (y m : Nat) : Nat × Nat :=
  if m = 0 then (y - 1, 11) else (y, m - 1)

/-- The per-month per-category accumulation loop of `insights`:
`map` (current month) and `mapPrev` (previous month). -/
def insightMaps (curKey prevKey : String) (expenses : List Record) :
    List (String × Rat) × List (String × Rat) :=
  expenses.foldl (fun acc e =>
    let mk := monthKey e.date
    (if mk = curKey then upsert e.category e.amount acc.1 else acc.1,
     if mk = prevKey then upsert e.category e.amount acc.2 else acc.2))
    ([], [])

/-- `Object.keys({...map, ...mapPrev})`: `map`'s keys in insertion order,
then `mapPrev`'s keys not already present. -/
def mergeKeys (a b : List String) : List String :=
  a ++ b.filter (fun k => !(a.contains k))

/-- The category-tip loop of `insights` (everything before the budget
alert is prepended). -/
def categoryTips (curKey prevKey : String) (expenses : List Record) : List Tip :=
  let maps := insightMaps curKey prevKey expenses
  (mergeKeys (maps.1.map Prod.fst) (maps.2.map Prod.fst)).foldl (fun tips cat =>
    let cur := |lookup0 maps.1 cat|
    let prevv := |lookup0 maps.2 cat|
    if prevv = 0 ∧ 0 < cur then tips ++ [Tip.started cat cur]
    else if 0 < prevv then
      let diffPct := (cur - prevv) / prevv * 100
      if 25 < diffPct then tips ++ [Tip.more cat (jsRound diffPct)]
      else if diffPct < -25 then tips ++ [Tip.less cat (jsRound (-diffPct))]
      else tips
    else tips) []

/-- `Math.abs(total) > (budget || Infinity)`: a zero budget is replaced by
`Infinity`, making the comparison false. -/
def budgetGate (total budget : Rat) : Bool :=
  if budget = 0 then false else decide (budget < |total|)

/-- `insights`: the category tips, with a budget-exceeded alert prepended
(`tips.unshift(...)`) when `Math.abs(total) > (budget || Infinity) &&
budget > 0`.  The current date enters only through the current
year/zero-based-month pair. -/
def insights (nowY nowM : Nat) (budget : Rat) (expenses : List Record) : List Tip :=
  let curKey := ymKey nowY nowM
  let p := prevYM nowY nowM
  let prevKey := ymKey p.1 p.2
  let tips := categoryTips curKey prevKey expenses
  if budgetGate (totalAmount expenses) budget && decide (0 < budget) then
    Tip.budgetAlert budget :: tips
  else tips

/-- The fixed category set of the dashboard (`Object.keys(CATEGORY_META)`). -/
def fixedCategories : List String :=
  ["Food & Drink", "Shopping", "Transportation", "Bills", "Entertainment", "Other"]

/-- Boolean non-decreasing test on the running totals. -/
def nonDecreasingB : List Rat → Bool
  | [] => true
  | [_] => true
  | x :: y :: rest => decide (x ≤ y) && nonDecreasingB (y :: rest)

/-- The claim's view of re-import: a record is unchanged, except that a
record with a falsy id gets the generated id `k`. -/
def reId (k : Rat) (r : Record) : Record :=
  if r.id.truthy then r else { r with id := .num k }

/-- `reId` applied along the list, element `i` drawing `fresh i`. -/
def reIdAll (fresh : Nat → Rat) : Nat → List Record → List Record
  | _, [] => []
  | i, r :: rs => reId (fresh i) r :: reIdAll fresh (i + 1) rs

/-- Acceptable JSON `category` field for the fixed-set invariant: absent,
empty, or a string drawn from the fixed set. -/
def catFieldOkB (o : Option Json) : Bool :=
  match o with
  | none => true
  | some (Json.str c) => c == "" || fixedCategories.contains c
  | some _ => false

/-- Acceptable CSV `category` cell for the fixed-set invariant. -/
def catCellOkB (o : Option String) : Bool :=
  match o with
  | none => true
  | some c => c == "" || fixedCategories.contains c

/-! ### Sample records used by witnesses and counterexamples -/

def rCoffee : Record := ⟨.num 1, "Coffee", 5, "2024-01-05", "Food & Drink"⟩

def rBus : Record := ⟨.num 2, "Bus", 2, "2024-01-20", "Transportation"⟩

def rSpend15 : Record := ⟨.num 1, "Coffee", 15, "2024-01-05", "Food & Drink"⟩

def rNeg : Record := ⟨.num 1, "Refund", -5, "2024-01-05", "Other"⟩

def rBadDate : Record := ⟨.num 3, "Mystery", 4, "garbage", "Other"⟩

def rNoId : Record := ⟨.num 0, "Bus", 2, "2024-01-20", "Transportation"⟩

/-! ### Helper lemmas: sorting -/

theorem insertSorted_perm {α : Type} (lt : α → α → Bool) (x : α) (l : List α) :
    (insertSorted lt x l).Perm (x :: l) := by
  induction l with
  | nil => simp [insertSorted]
  | cons y ys ih =>
      simp only [insertSorted]
      by_cases h : lt x y = true
      · simp [h]
      · simp only [h, if_false, Bool.false_eq_true]
        exact (ih.cons y).trans (List.Perm.swap x y ys)

theorem sortJS_perm {α : Type} (lt : α → α → Bool) (l : List α) :
    (sortJS lt l).Perm l := by
  induction l with
  | nil => simp [sortJS]
  | cons x xs ih =>
      exact (insertSorted_perm lt x (sortJS lt xs)).trans (ih.cons x)

theorem mem_sortJS {α : Type} (lt : α → α → Bool) (l : List α) (a : α) :
    a ∈ sortJS lt l ↔ a ∈ l :=
  (sortJS_perm lt l).mem_iff

/-! ### Helper lemmas: sums of grouped totals -/

theorem sumVals_nil : sumVals [] = 0 := rfl

theorem sumVals_cons (p : String × Rat) (l : List (String × Rat)) :
    sumVals (p :: l) = p.2 + sumVals l := by
  simp [sumVals]

theorem sumVals_upsert (k : String) (v : Rat) (m : List (String × Rat)) :
    sumVals (upsert k v m) = sumVals m + v := by
  induction m with
  | nil => simp [upsert, sumVals]
  | cons p rest ih =>
      obtain ⟨k2, v2⟩ := p
      by_cases h : k2 = k
      · simp only [upsert, if_pos h, sumVals_cons]
        ring
      · simp only [upsert, if_neg h, sumVals_cons, ih]
        ring

theorem foldl_amount (l : List Record) :
    ∀ a : Rat, l.foldl (fun acc e => acc + e.amount) a = a + (l.map Record.amount).sum := by
  induction l with
  | nil => simp
  | cons e rest ih =>
      intro a
      simp only [List.foldl_cons, List.map_cons, List.sum_cons, ih]
      ring

theorem totalAmount_eq (l : List Record) :
    totalAmount l = (l.map Record.amount).sum := by
  simpa [totalAmount] using foldl_amount l 0

theorem sum_foldl_upsert (key : Record → String) (l : List Record) :
    ∀ acc : List (String × Rat),
      sumVals (l.foldl (fun m e => upsert (key e) e.amount m) acc) =
        sumVals acc + (l.map Record.amount).sum := by
  induction l with
  | nil => simp
  | cons e rest ih =>
      intro acc
      simp only [List.foldl_cons, List.map_cons, List.sum_cons, ih, sumVals_upsert]
      ring

theorem sumVals_perm {l1 l2 : List (String × Rat)} (h : l1.Perm l2) :
    sumVals l1 = sumVals l2 :=
  (h.map Prod.snd).sum_eq

theorem sumVals_categoryTotals (l : List Record) :
    sumVals (categoryTotals l) = totalAmount l := by
  rw [totalAmount_eq]
  simpa [categoryTotals, sumVals_nil] using sum_foldl_upsert (fun e => e.category) l []

theorem sumVals_monthlyTotals (l : List Record) :
    sumVals (monthlyTotals l) = totalAmount l := by
  rw [totalAmount_eq, monthlyTotals,
    sumVals_perm (sortJS_perm (fun a b => a.1 < b.1) (monthlyMap l))]
  simpa [monthlyMap, sumVals_nil] using sum_foldl_upsert (fun e => monthKey e.date) l []

/-! ### Helper lemmas: cumulative series -/

theorem chainA (l : List Record) :
    ∀ acc : Rat,
      (nonDecreasingB (acc :: (runTotals acc l).map Prod.snd) = true ↔
        ∀ r ∈ l, 0 ≤ r.amount) := by
  induction l with
  | nil => intro acc; simp [runTotals, nonDecreasingB]
  | cons e rest ih =>
      intro acc
      simp only [runTotals, List.map_cons, nonDecreasingB, Bool.and_eq_true,
        decide_eq_true_eq, List.mem_cons, forall_eq_or_imp]
      rw [ih (acc + e.amount)]
      constructor
      · rintro ⟨h1, h2⟩
        exact ⟨by linarith, h2⟩
      · rintro ⟨h1, h2⟩
        exact ⟨by linarith, h2⟩

theorem chainB (l : List Record) (acc : Rat) :
    nonDecreasingB ((runTotals acc l).map Prod.snd) = true ↔
      ∀ r ∈ l.tail, 0 ≤ r.amount := by
  cases l with
  | nil => simp [runTotals, nonDecreasingB]
  | cons e rest =>
      simp only [runTotals, List.map_cons, List.tail_cons]
      exact chainA rest (acc + e.amount)

theorem runTotals_length (l : List Record) :
    ∀ acc : Rat, (runTotals acc l).length = l.length := by
  induction l with
  | nil => intro acc; rfl
  | cons e rest ih => intro acc; simp [runTotals, ih]

theorem mem_sortByDateAsc (l : List Record) (r : Record) :
    r ∈ sortByDateAsc l ↔ r ∈ l :=
  mem_sortJS _ l r

/-! ### Helper lemmas: the filtered view -/

theorem mem_catStep {fc : String} {l : List Record} {r : Record}
    (h : r ∈ catStep fc l) : r ∈ l := by
  unfold catStep at h
  split at h
  · exact (List.mem_filter.mp h).1
  · exact h

theorem mem_fromStep {f : String} {l : List Record} {r : Record}
    (h : r ∈ fromStep f l) : r ∈ l ∧ (f ≠ "" → jsDateGe r.date f = true) := by
  unfold fromStep at h
  split at h
  case isTrue hf => exact ⟨(List.mem_filter.mp h).1, fun _ => (List.mem_filter.mp h).2⟩
  case isFalse hf => exact ⟨h, fun hc => absurd hc hf⟩

theorem mem_toStep {t : String} {l : List Record} {r : Record}
    (h : r ∈ toStep t l) : r ∈ l ∧ (t ≠ "" → jsDateLe r.date t = true) := by
  unfold toStep at h
  split at h
  case isTrue ht => exact ⟨(List.mem_filter.mp h).1, fun _ => (List.mem_filter.mp h).2⟩
  case isFalse ht => exact ⟨h, fun hc => absurd hc ht⟩

theorem mem_ifSort (c : Prop) [Decidable c] (lt : Record → Record → Bool)
    (l : List Record) (a : Record) :
    (a ∈ (if c then sortJS lt l else l)) ↔ a ∈ l := by
  split
  · exact mem_sortJS lt l a
  · exact Iff.rfl

theorem mem_sortStep {sb : String} {l : List Record} {r : Record} :
    r ∈ sortStep sb l ↔ r ∈ l := by
  unfold sortStep
  rw [mem_ifSort, mem_ifSort, mem_ifSort, mem_ifSort]

theorem jsDateGe_parses {a b : String} (h : jsDateGe a b = true) :
    dateVal a ≠ none := by
  unfold jsDateGe at h
  intro hn
  rw [hn] at h
  cases dateVal b <;> simp at h

theorem jsDateLe_parses {a b : String} (h : jsDateLe a b = true) :
    dateVal a ≠ none := by
  unfold jsDateLe at h
  intro hn
  rw [hn] at h
  cases dateVal b <;> simp at h

/-! ### Helper lemmas: the JSON round trip -/

theorem jGet_export_id (r : Record) :
    jGet (recordToJson r) "id" = some (idToJson r.id) := rfl

theorem jGet_export_reason (r : Record) :
    jGet (recordToJson r) "reason" = some (.str r.reason) := rfl

theorem jGet_export_amount (r : Record) :
    jGet (recordToJson r) "amount" = some (.num r.amount) := rfl

theorem jGet_export_date (r : Record) :
    jGet (recordToJson r) "date" = some (.str r.date) := rfl

theorem jGet_export_category (r : Record) :
    jGet (recordToJson r) "category" = some (.str r.category) := rfl

theorem cleanElem_export (fresh : Rat) (today : String) (r : Record)
    (h1 : r.reason ≠ "") (h2 : r.date ≠ "") (h3 : r.category ≠ "") :
    cleanElem fresh today (recordToJson r) = some (reId fresh r) := by
  obtain ⟨rid, rr, ra, rd, rc⟩ := r
  simp only [ne_eq] at h1 h2 h3
  cases rid with
  | num q =>
      by_cases hq : q = 0 <;>
        simp [cleanElem, recordToJson, jGet, cleanId, cleanStrField, cleanAmount,
          jsNumberOfJson, idToJson, reId, IdVal.truthy, h1, h2, h3, hq, List.find?]
  | str s2 =>
      by_cases hs : s2 = "" <;>
        simp [cleanElem, recordToJson, jGet, cleanId, cleanStrField, cleanAmount,
          jsNumberOfJson, idToJson, reId, IdVal.truthy, h1, h2, h3, hs, List.find?]

theorem cleanList_export (fresh : Nat → Rat) (today : String) (recs : List Record) :
    ∀ i : Nat, (∀ r ∈ recs, r.reason ≠ "" ∧ r.date ≠ "" ∧ r.category ≠ "") →
      cleanList fresh today i (recs.map recordToJson) = some (reIdAll fresh i recs) := by
  induction recs with
  | nil => intro i _; rfl
  | cons r rest ih =>
      intro i h
      have hr := h r (List.mem_cons_self r rest)
      have hrest : ∀ x ∈ rest, x.reason ≠ "" ∧ x.date ≠ "" ∧ x.category ≠ "" :=
        fun x hx => h x (List.mem_cons_of_mem r hx)
      simp only [List.map_cons, cleanList,
        cleanElem_export (fresh i) today r hr.1 hr.2.1 hr.2.2, ih (i + 1) hrest, reIdAll]

/-! ### Helper lemmas: categories after import -/

theorem cleanElem_category (fresh : Rat) (today : String) (j : Json) (r : Record)
    (h : cleanElem fresh today j = some r) :
    r.category = cleanStrField "Other" (jGet j "category") := by
  cases j <;> simp only [cleanElem, Option.some.injEq] at h <;>
    first
      | exact absurd h (by simp)
      | (rw [← h])

theorem cleanList_mem (fresh : Nat → Rat) (today : String) (jl : List Json) :
    ∀ (i : Nat) (cleaned : List Record), cleanList fresh today i jl = some cleaned →
      ∀ r ∈ cleaned, ∃ j ∈ jl, ∃ k, cleanElem k today j = some r := by
  induction jl with
  | nil =>
      intro i cleaned h r hr
      simp only [cleanList, Option.some.injEq] at h
      rw [← h] at hr
      cases hr
  | cons j rest ih =>
      intro i cleaned h r hr
      simp only [cleanList] at h
      cases he : cleanElem (fresh i) today j with
      | none => rw [he] at h; cases h
      | some r0 =>
          rw [he] at h
          cases hl : cleanList fresh today (i + 1) rest with
          | none => rw [hl] at h; cases h
          | some rs =>
              rw [hl] at h
              simp only [Option.some.injEq] at h
              rw [← h] at hr
              cases hr with
              | head => exact ⟨j, List.mem_cons_self j rest, fresh i, he⟩
              | tail _ htail =>
                  obtain ⟨j2, hj2, k, hk⟩ := ih (i + 1) rs hl r htail
                  exact ⟨j2, List.mem_cons_of_mem j hj2, k, hk⟩

theorem cleanStrField_other_ok (o : Option Json) (h : catFieldOkB o = true) :
    cleanStrField "Other" o ∈ fixedCategories := by
  match o with
  | none => simp [cleanStrField, fixedCategories]
  | some (Json.str c) =>
      simp only [catFieldOkB, Bool.or_eq_true, beq_iff_eq] at h
      cases h with
      | inl hc => simp [cleanStrField, hc, fixedCategories]
      | inr hc =>
          have hmem : c ∈ fixedCategories := by simpa [fixedCategories] using hc
          by_cases hc2 : c = ""
          · simp [cleanStrField, hc2, fixedCategories]
          · simpa [cleanStrField, hc2] using hmem
  | some .null => simp [catFieldOkB] at h
  | some (.bool b) => simp [catFieldOkB] at h
  | some (.num q) => simp [catFieldOkB] at h
  | some (.arr l) => simp [catFieldOkB] at h
  | some (.obj f) => simp [catFieldOkB] at h

/-! ### The claims -/

/-- C1: for every list of expense records, the sum of the category totals
equals the sum of all record amounts, and the sum of the monthly totals
equals that same grand total — neither grouping double-counts or omits an
amount. -/
theorem C1_totals_agree (expenses : List Record) :
    sumVals (categoryTotals expenses) = totalAmount expenses ∧
    sumVals (monthlyTotals expenses) = totalAmount expenses :=
  ⟨sumVals_categoryTotals expenses, sumVals_monthlyTotals expenses⟩

/-- C2: exporting a record set to JSON and importing that JSON back yields
the original records (by id, reason, amount, date and category), except
that a record whose id is falsy ("missing") gets a freshly generated id;
the hypotheses are the store invariants that every reachable record set
satisfies (non-empty reason, date and category). -/
theorem C2_json_roundtrip (recs : List Record) (fresh : Nat → Rat) (today : String)
    (s : List Record)
    (h : ∀ r ∈ recs, r.reason ≠ "" ∧ r.date ≠ "" ∧ r.category ≠ "") :
    handleImportJSON fresh today (some (exportJSON recs)) s =
      (s ++ reIdAll fresh 0 recs, true) := by
  simp only [handleImportJSON, exportJSON, cleanList_export fresh today recs 0 h]

theorem C2_json_roundtrip_witness :
    handleImportJSON (fun i => ((100 + i : Nat) : Rat)) "2024-09-09"
        (some (exportJSON [rCoffee, rNoId])) [] =
      ([] ++ reIdAll (fun i => ((100 + i : Nat) : Rat)) 0 [rCoffee, rNoId], true) :=
  C2_json_roundtrip [rCoffee, rNoId] (fun i => ((100 + i : Nat) : Rat)) "2024-09-09" []
    (by decide)

/-- C3 (counterexample): importing a record whose category is the
unrecognized non-empty string "Banana" leaves that category in the store
unchanged, so not every record ends up with a category in the fixed set —
the claim as stated is false. -/
theorem C3_counterexample :
    ¬ (∀ r ∈ (handleImportJSON (fun i => ((100 + i : Nat) : Rat)) "2024-01-01"
          (some (Json.arr [Json.obj [("category", Json.str "Banana")]])) []).1,
        r.category ∈ fixedCategories) := by decide

/-- C3 (amended): delete preserves the fixed-set category invariant, add
preserves it when the added category is drawn from the fixed set (the form
selector only offers those), and the importers map an absent or empty
category to "Other" but keep any other category string unchanged — so the
invariant survives an import exactly when every imported category field is
absent, empty, or already in the fixed set. -/
theorem C3_category_invariant_amended (s : List Record) (id : IdVal) (rec : Record)
    (fresh : Nat → Rat) (today : String) (jl : List Json)
    (k : Rat) (headers parts : List String) :
    ((∀ r ∈ s, r.category ∈ fixedCategories) →
      ∀ r ∈ deleteExpense id s, r.category ∈ fixedCategories) ∧
    ((∀ r ∈ s, r.category ∈ fixedCategories) → rec.category ∈ fixedCategories →
      ∀ r ∈ s ++ [rec], r.category ∈ fixedCategories) ∧
    ((∀ r ∈ s, r.category ∈ fixedCategories) →
      (∀ j ∈ jl, catFieldOkB (jGet j "category") = true) →
      ∀ r ∈ (handleImportJSON fresh today (some (Json.arr jl)) s).1,
        r.category ∈ fixedCategories) ∧
    (catCellOkB (lookupField headers parts "category") = true →
      (cleanCSVRow k today headers parts).category ∈ fixedCategories) := by
  refine ⟨?_, ?_, ?_, ?_⟩
  · intro hs r hr
    unfold deleteExpense at hr
    exact hs r (List.mem_filter.mp hr).1
  · intro hs hrec r hr
    rcases List.mem_append.mp hr with h1 | h1
    · exact hs r h1
    · rw [List.mem_singleton.mp h1]
      exact hrec
  · intro hs hok r hr
    simp only [handleImportJSON] at hr
    cases hcl : cleanList fresh today 0 jl with
    | none =>
        rw [hcl] at hr
        exact hs r hr
    | some cleaned =>
        rw [hcl] at hr
        rcases List.mem_append.mp hr with h1 | h1
        · exact hs r h1
        · obtain ⟨j, hj, k2, hk⟩ := cleanList_mem fresh today jl 0 cleaned hcl r h1
          rw [cleanElem_category k2 today j r hk]
          exact cleanStrField_other_ok _ (hok j hj)
  · intro hok
    simp only [cleanCSVRow]
    cases hlf : lookupField headers parts "category" with
    | none => simp [hlf, fixedCategories]
    | some c =>
        rw [hlf] at hok
        simp only [catCellOkB, Bool.or_eq_true, beq_iff_eq] at hok
        cases hok with
        | inl hc => simp [hlf, hc, fixedCategories]
        | inr hc =>
            have hmem : c ∈ fixedCategories := by simpa [fixedCategories] using hc
            by_cases hc2 : c = ""
            · simp [hlf, hc2, fixedCategories]
            · simpa [hlf, hc2] using hmem

theorem C3_category_invariant_amended_witness :
    (∀ r ∈ deleteExpense (.num 99) [rCoffee], r.category ∈ fixedCategories) ∧
    (∀ r ∈ [rCoffee] ++ [rBus], r.category ∈ fixedCategories) ∧
    (∀ r ∈ (handleImportJSON (fun i => ((100 + i : Nat) : Rat)) "2024-01-01"
        (some (Json.arr [Json.obj [("category", Json.str "Bills")]])) [rCoffee]).1,
      r.category ∈ fixedCategories) ∧
    (cleanCSVRow 7 "2024-01-01" ["category"] ["Bills"]).category ∈ fixedCategories := by
  have h := C3_category_invariant_amended [rCoffee] (.num 99) rBus
    (fun i => ((100 + i : Nat) : Rat)) "2024-01-01"
    [Json.obj [("category", Json.str "Bills")]] 7 ["category"] ["Bills"]
  exact ⟨h.1 (by decide), h.2.1 (by decide) (by decide),
    h.2.2.1 (by decide) (by decide), h.2.2.2 (by decide)⟩

/-- C4 (counterexample): a store holding one single record of amount −5
yields a one-point cumulative series, which is (vacuously) non-decreasing
even though not every amount is non-negative — the claimed equivalence is
false. -/
theorem C4_counterexample :
    nonDecreasingB ((cumulativeData [rNeg]).map Prod.snd) = true ∧
    ¬ (∀ r ∈ [rNeg], 0 ≤ r.amount) := by decide

/-- C4 (amended): the cumulative running totals form a non-decreasing
sequence if and only if every record other than the first in date-sorted
order has a non-negative amount (the first record's amount is
unconstrained); in particular all amounts non-negative implies
non-decreasing, and the series has one point per record. -/
theorem C4_cumulative_amended (expenses : List Record) :
    (nonDecreasingB ((cumulativeData expenses).map Prod.snd) = true ↔
      ∀ r ∈ (sortByDateAsc expenses).tail, 0 ≤ r.amount) ∧
    ((∀ r ∈ expenses, 0 ≤ r.amount) →
      nonDecreasingB ((cumulativeData expenses).map Prod.snd) = true) ∧
    (cumulativeData expenses).length = expenses.length := by
  refine ⟨chainB _ 0, ?_, ?_⟩
  · intro h
    exact (chainB (sortByDateAsc expenses) 0).mpr
      (fun r hr => h r ((mem_sortByDateAsc expenses r).mp (List.mem_of_mem_tail hr)))
  · calc (cumulativeData expenses).length = (sortByDateAsc expenses).length :=
          runTotals_length _ 0
      _ = expenses.length := (sortJS_perm _ expenses).length_eq

theorem C4_cumulative_amended_witness :
    nonDecreasingB ((cumulativeData [rCoffee, rBus]).map Prod.snd) = true :=
  (C4_cumulative_amended [rCoffee, rBus]).2.1 (by decide)

/-- C5: JSON import of malformed text (a failed parse) or of a parse whose
top-level value is not an array reports the invalid-file error and leaves
the record store unchanged. -/
theorem C5_invalid_json_no_mutation (fresh : Nat → Rat) (today : String) (s : List Record) :
    handleImportJSON fresh today none s = (s, false) ∧
    ∀ j : Json, j.isArr = false → handleImportJSON fresh today (some j) s = (s, false) := by
  refine ⟨rfl, ?_⟩
  intro j hj
  cases j <;> simp_all [handleImportJSON, Json.isArr]

theorem C5_invalid_json_no_mutation_witness :
    handleImportJSON (fun _ => 1) "2024-01-01" none [rCoffee] = ([rCoffee], false) ∧
    handleImportJSON (fun _ => 1) "2024-01-01" (some (Json.num 5)) [rCoffee] =
      ([rCoffee], false) :=
  ⟨(C5_invalid_json_no_mutation (fun _ => 1) "2024-01-01" [rCoffee]).1,
   (C5_invalid_json_no_mutation (fun _ => 1) "2024-01-01" [rCoffee]).2 (Json.num 5) rfl⟩

/-- C6: the budget percentage is `min(1, abs(total spend) / budget)` for a
positive budget and `0` otherwise; in particular budget `0` gives `0`
regardless of spend, and budget `10` with total spend `15` gives exactly
`1`. -/
theorem C6_percent_of_budget (b : Rat) (expenses : List Record) :
    (0 < b → percentOfBudget b expenses = min 1 (|totalAmount expenses| / b)) ∧
    (¬ 0 < b → percentOfBudget b expenses = 0) ∧
    percentOfBudget 0 expenses = 0 ∧
    (totalAmount expenses = 15 → percentOfBudget 10 expenses = 1) := by
  refine ⟨fun h => by simp [percentOfBudget, h],
    fun h => by simp [percentOfBudget, h],
    by simp [percentOfBudget], fun h => ?_⟩
  rw [percentOfBudget, if_pos (by norm_num : (0 : Rat) < 10), h]
  norm_num

theorem C6_percent_of_budget_witness :
    percentOfBudget 10 [rSpend15] = 1 ∧ percentOfBudget 0 [rSpend15] = 0 :=
  ⟨(C6_percent_of_budget 10 [rSpend15]).2.2.2 (by norm_num [totalAmount, rSpend15]),
   (C6_percent_of_budget 10 [rSpend15]).2.2.1⟩

/-- C7: CSV import of the header line `id,reason,amount,date,category`
with the single data row `,Lunch,12.5,2024-02-01,Food & Drink` appends
exactly one record: generated id, reason "Lunch", amount 12.5, date
"2024-02-01", category "Food & Drink". -/
theorem C7_csv_scenario (fresh : Nat → Rat) (today : String) (s : List Record) :
    handleFileImportCSV fresh today
        "id,reason,amount,date,category\n,Lunch,12.5,2024-02-01,Food & Drink" s =
      (s ++ [{ id := .num (fresh 0), reason := "Lunch", amount := 25 / 2,
               date := "2024-02-01", category := "Food & Drink" }], true) := by
  have h1 : handleFileImportCSV fresh today
      "id,reason,amount,date,category\n,Lunch,12.5,2024-02-01,Food & Drink" s =
      (s ++ [cleanCSVRow (fresh 0) today
        ["id", "reason", "amount", "date", "category"]
        ["", "Lunch", "12.5", "2024-02-01", "Food & Drink"]], true) := rfl
  have h2 : cleanCSVRow (fresh 0) today
      ["id", "reason", "amount", "date", "category"]
      ["", "Lunch", "12.5", "2024-02-01", "Food & Drink"] =
      ⟨.num (fresh 0), "Lunch", (jsStringToNumber "12.5").getD 0,
        "2024-02-01", "Food & Drink"⟩ := rfl
  have h3 : (jsStringToNumber "12.5").getD 0 = 25 / 2 := by
    have h : jsStringToNumber "12.5" =
        some (((12 : Nat) : Rat) + ((5 : Nat) : Rat) / (10 : Rat) ^ (1 : Nat)) := rfl
    rw [h, Option.getD_some]
    norm_num
  rw [h1, h2, h3]

/-- C8: deleting an id removes exactly the records carrying that id,
removing an id that is not present leaves the list unchanged, and deletion
is idempotent. -/
theorem C8_delete_exact_and_idempotent (s : List Record) (id : IdVal) :
    (∀ r, r ∈ deleteExpense id s ↔ r ∈ s ∧ r.id ≠ id) ∧
    ((∀ r ∈ s, r.id ≠ id) → deleteExpense id s = s) ∧
    deleteExpense id (deleteExpense id s) = deleteExpense id s := by
  refine ⟨?_, ?_, ?_⟩
  · intro r
    simp [deleteExpense, List.mem_filter]
  · intro h
    exact List.filter_eq_self.mpr (fun a ha => by simpa using h a ha)
  · simp [deleteExpense, List.filter_filter]

theorem C8_delete_witness : deleteExpense (.num 99) [rCoffee] = [rCoffee] :=
  (C8_delete_exact_and_idempotent [rCoffee] (.num 99)).2.1 (by decide)

/-- C9: whenever the budget is positive and the absolute total spend
exceeds it, the insight list is non-empty and its first element is the
budget-exceeded alert, placed ahead of all category tips. -/
theorem C9_budget_alert_first (nowY nowM : Nat) (budget : Rat) (expenses : List Record)
    (hb : 0 < budget) (hx : budget < |totalAmount expenses|) :
    insights nowY nowM budget expenses =
      Tip.budgetAlert budget ::
        categoryTips (ymKey nowY nowM)
          (ymKey (prevYM nowY nowM).1 (prevYM nowY nowM).2) expenses ∧
    insights nowY nowM budget expenses ≠ [] ∧
    (insights nowY nowM budget expenses).head? = some (Tip.budgetAlert budget) := by
  have hgate : budgetGate (totalAmount expenses) budget = true := by
    simp [budgetGate, hb.ne', hx]
  have hmain : insights nowY nowM budget expenses =
      Tip.budgetAlert budget ::
        categoryTips (ymKey nowY nowM)
          (ymKey (prevYM nowY nowM).1 (prevYM nowY nowM).2) expenses := by
    simp [insights, hgate, hb]
  exact ⟨hmain, by simp [hmain], by simp [hmain]⟩

theorem C9_budget_alert_first_witness :
    insights 2024 0 10 [rSpend15] =
      Tip.budgetAlert 10 ::
        categoryTips (ymKey 2024 0) (ymKey (prevYM 2024 0).1 (prevYM 2024 0).2)
          [rSpend15] :=
  (C9_budget_alert_first 2024 0 10 [rSpend15] (by norm_num)
    (by
      have h15 : totalAmount [rSpend15] = 15 := by norm_num [totalAmount, rSpend15]
      rw [h15, abs_of_pos (by norm_num : (0 : Rat) < 15)]
      norm_num)).1

/-- C10: whenever a from-date or to-date filter bound is set, every record
whose date string does not parse as a valid calendar date is excluded from
the filtered view, because every date comparison against an invalid parsed
date is false. -/
theorem C10_invalid_dates_excluded (expenses : List Record) (fc f t sb : String)
    (r : Record) (hft : f ≠ "" ∨ t ≠ "") (hbad : dateVal r.date = none) :
    r ∉ filtered expenses fc f t sb := by
  intro hmem
  unfold filtered at hmem
  have h1 := mem_sortStep.mp hmem
  have h2 := mem_toStep h1
  have h3 := mem_fromStep h2.1
  cases hft with
  | inl hf => exact jsDateGe_parses (h3.2 hf) hbad
  | inr ht => exact jsDateLe_parses (h2.2 ht) hbad

theorem C10_invalid_dates_excluded_witness :
    rBadDate ∉ filtered [rBadDate, rBus] "All" "2024-01-01" "" "newest" :=
  C10_invalid_dates_excluded [rBadDate, rBus] "All" "2024-01-01" "" "newest" rBadDate
    (Or.inl (by decide)) (by decide)

end FinTrack
